import Mathlib

/-!
Shallow embedding of the host layer of the Lycoris repository
(src/src/main.ts): the IndexedDB helper `LycorisDB`, the worker
transport `WorkerManager`, and the UI driver `LycorisUI`.

The asynchronous handlers of the source (promise executors, `onmessage`,
`setTimeout` callbacks, `async` methods) are embedded as pure transition
functions on explicit state records.  Effects that leave the modelled
state (posting a message to the worker, settling a promise, writing to
the IndexedDB store, rendering an error) are returned as explicit action
lists, in the order the source performs them.
-/

namespace Lycoris

/-- Settling a pending request promise in `WorkerManager`:
`resolve(data)` on a success response, `reject(new Error(data))`
otherwise (the timeout handler rejects with "Operation timeout"). -/
inductive Settlement where
  | resolved (data : String)
  | rejected (message : String)
  deriving DecidableEq, Repr

namespace WorkerManager

/-- The mutable fields of `WorkerManager` (main.ts lines 55-59):
`worker` is `true` when `this.worker !== null`; `messageId` is the
next correlation id; `pending` is the key set of `pendingMessages`
(the resolve/reject closures themselves are represented by the
`Settlement` actions the handlers emit); `ready` mirrors `this.ready`. -/
structure WMState where
  worker : Bool
  messageId : Nat
  pending : List Nat
  ready : Bool
  deriving DecidableEq, Repr

/-- What a `sendMessage` call returns to its caller: the updated manager
state, the messages posted to the worker as `(type, data, id)` triples,
and either the id under which the new promise is pending (`Except.ok`)
or the message of the immediate rejection (`Except.error`). -/
structure SendResult where
  state : WMState
  posted : List (String × Option String × Nat)
  outcome : Except String Nat
  deriving Repr

/-- `WorkerManager.sendMessage` (main.ts lines 93-113).  When the worker
is absent or not ready the promise rejects at once with
`Error("Worker not ready")` and nothing is posted; otherwise the id
`this.messageId++` is allocated, recorded in `pendingMessages`, and
`{type, data, id}` is posted.  The 60-second timeout armed here is
embedded separately as `timeoutFires`. -/
def sendMessage (st : WMState) (type : String) (data : Option String) : SendResult :=
  if !st.worker || !st.ready then
    { state := st, posted := [], outcome := .error "Worker not ready" }
  else
    let id := st.messageId
    { state := { st with messageId := id + 1, pending := id :: st.pending },
      posted := [(type, data, id)],
      outcome := .ok id }

/-- The `setTimeout` callback armed by `sendMessage` (main.ts lines
106-111), firing 60000 ms after the post: if the id is still pending it
is deleted and the promise rejects with `Error("Operation timeout")`;
otherwise nothing happens. -/
def timeoutFires (st : WMState) (id : Nat) : WMState × List (Nat × Settlement) :=
  if id ∈ st.pending then
    ({ st with pending := st.pending.erase id },
     [(id, .rejected "Operation timeout")])
  else (st, [])

/-- The `worker.onmessage` handler installed by `init` (main.ts lines
65-84), applied to an event whose data has fields `type`, `id`
(possibly absent) and `data`.  A `ready` message sets `ready` and sends
the `init` request; any other message whose `id` is pending deletes the
id and settles that promise: resolved on type `success`, rejected
otherwise. -/
def onmessage (st : WMState) (dtype : String) (did : Option Nat) (ddata : String) :
    WMState × List (Nat × Settlement) × List (String × Option String × Nat) :=
  if dtype = "ready" then
    let r := sendMessage { st with ready := true } "init" none
    (r.state, [], r.posted)
  else
    match did with
    | none => (st, [], [])
    | some id =>
      if id ∈ st.pending then
        ({ st with pending := st.pending.erase id },
         [(id, if dtype = "success" then .resolved ddata else .rejected ddata)],
         [])
      else (st, [], [])

/-- `WorkerManager.terminate` (main.ts lines 127-133): discards the
worker instance and clears `ready`. -/
def terminate (st : WMState) : WMState :=
  if st.worker then { st with worker := false, ready := false } else st

/-- `WorkerManager.execute` (main.ts lines 115-117). -/
def execute (st : WMState) (code : String) : SendResult :=
  sendMessage st "execute" (some code)

/-- `WorkerManager.getState` (main.ts lines 119-121). -/
def getState (st : WMState) : SendResult :=
  sendMessage st "getState" none

/-- `WorkerManager.loadState` (main.ts lines 123-125). -/
def loadState (st : WMState) (state : String) : SendResult :=
  sendMessage st "loadState" (some state)

/-- Invariant of the manager state: pending correlation ids are
pairwise distinct and all below the counter `messageId` (ids are handed
out by `this.messageId++`, so every pending id was a past counter
value). -/
def WMInv (st : WMState) : Prop :=
  st.pending.Nodup ∧ ∀ i ∈ st.pending, i < st.messageId

instance (st : WMState) : Decidable (WMInv st) := by
  unfold WMInv; infer_instance

end WorkerManager

namespace LycorisDB

/-- Contents of the single object store `dictionary` of the IndexedDB
database, as a key/value map.  The stored value is the serialized state
blob the UI passes to `save` (`this.currentState.state`). -/
def Store := String → Option String

/-- `LycorisDB.save` (main.ts lines 27-38): rejects with
`Error("Database not initialized")` when `this.db` is null, otherwise
`store.put(value, key)` overwrites the key. -/
def save (db : Option Store) (key : String) (value : String) : Except String Store :=
  match db with
  | none => .error "Database not initialized"
  | some s => .ok (fun k => if k = key then some value else s k)

/-- `LycorisDB.load` (main.ts lines 40-51): rejects with
`Error("Database not initialized")` when `this.db` is null, otherwise
`store.get(key)` resolves with the stored value, or with `undefined`
(`none`) when the key is absent. -/
def load (db : Option Store) (key : String) : Except String (Option String) :=
  match db with
  | none => .error "Database not initialized"
  | some s => .ok (s key)

end LycorisDB

/-! JavaScript string methods used by main.ts, embedded over the
character sequence of the string (for the values involved — ASCII
markup and decimal digit strings — JS UTF-16 indexing coincides with
character indexing).  They are written over `List Char` so they
evaluate inside the kernel. -/

/-- JS `String.prototype.startsWith`. -/
def jsStartsWith (s p : String) : Bool :=
  p.toList.isPrefixOf s.toList

/-- JS `String.prototype.endsWith`. -/
def jsEndsWith (s p : String) : Bool :=
  p.toList.isSuffixOf s.toList

/-- JS `String.prototype.includes` for a single character. -/
def jsIncludesChar (s : String) (c : Char) : Bool :=
  s.toList.contains c

/-- JS `String.prototype.length` (character count for the ASCII/digit
strings this code handles). -/
def jsLength (s : String) : Nat :=
  s.toList.length

/-- JS `String.prototype.substring(from, to)` with the clamping JS
performs (a negative `from` computed as `length - 10` on a short string
clamps to 0, which N-subtraction gives directly). -/
def jsSubstring (s : String) (start stop : Nat) : String :=
  ⟨(s.toList.drop start).take (stop - start)⟩

/-- JS `String.prototype.substring(from)` — from `from` to the end. -/
def jsSubstringFrom (s : String) (start : Nat) : String :=
  ⟨s.toList.drop start⟩

/-- JS `String.prototype.split` on a single-character separator. -/
def jsSplitChar (s : String) (c : Char) : List String :=
  (s.toList.splitOn c).map (fun l => ⟨l⟩)

/-- The whitespace characters relevant to JS `trim` in this code
(space, tab, newline, carriage return). -/
def isJsSpace (c : Char) : Bool :=
  c = ' ' || c = '\t' || c = '\n' || c = '\r'

/-- JS `String.prototype.trim`: strip whitespace from both ends. -/
def jsTrim (s : String) : String :=
  ⟨((s.toList.dropWhile isJsSpace).reverse.dropWhile isJsSpace).reverse⟩

/-- The result object the worker returns for `execute` / `getState`,
as consumed by `LycorisUI`: `updateDisplayFromState` reads `stack`,
`output` and `dictionary`; `saveState` persists the `state` blob. -/
structure ExecState where
  stack : List String
  output : String
  dictionary : List (List String)
  state : String
  deriving DecidableEq, Repr

namespace LycorisUI

/-- The mutable fields of `LycorisUI` relevant to execution and
persistence (main.ts lines 140-143), together with the database this
UI's `LycorisDB` instance is connected to (`none` before `init`). -/
structure UIState where
  isProcessing : Bool
  currentState : Option ExecState
  db : Option LycorisDB.Store

/-- Outcome of the awaited `workerManager.execute(code)` call inside
`executeCode`: the worker's success response, or the error the promise
rejected with (worker error response or timeout). -/
inductive ExecOutcome where
  | success (result : ExecState)
  | failure (err : String)
  deriving DecidableEq, Repr

/-- Externally visible effects of the `LycorisUI` methods, in program
order: a request sent through the worker manager, an error shown in the
output panel, a `put` on the IndexedDB store, a display refresh. -/
inductive UIAction where
  | workerExecute (code : String)
  | workerLoadState (blob : String)
  | workerGetState
  | showError (msg : String)
  | dbPut (key : String) (value : String)
  | renderState (s : ExecState)
  deriving DecidableEq, Repr

/-- `LycorisUI.saveState` (main.ts lines 450-458): returns at once when
`currentState` is null; otherwise `db.save('dictionary',
this.currentState.state)`, with any rejection caught and logged. -/
def saveState (ui : UIState) : UIState × List UIAction :=
  match ui.currentState with
  | none => (ui, [])
  | some cs =>
    match LycorisDB.save ui.db "dictionary" cs.state with
    | .error _ => (ui, [])
    | .ok s => ({ ui with db := some s }, [.dbPut "dictionary" cs.state])

/-- `LycorisUI.loadSavedState` (main.ts lines 460-472):
`db.load('dictionary')`; when the result is truthy (present and not the
empty string) the blob is sent to the worker via `loadState`, then
`getState` is awaited and stored into `currentState`.  `workerState`
stands for the worker's `getState` response; any rejection is caught
and logged. -/
def loadSavedState (ui : UIState) (workerState : ExecState) : UIState × List UIAction :=
  match LycorisDB.load ui.db "dictionary" with
  | .error _ => (ui, [])
  | .ok none => (ui, [])
  | .ok (some blob) =>
    if blob = "" then (ui, [])
    else
      ({ ui with currentState := some workerState },
       [.workerLoadState blob, .workerGetState])

/-- `LycorisUI.executeCode` (main.ts lines 319-357).  `input` is the
content of the input textarea (`none` when the element is missing).
Guards: return at once while `isProcessing`, or when the trimmed code
is empty.  Otherwise `isProcessing` is set, `execute(code)` is awaited
(its settlement is the `outcome` argument); on success the result is
stored in `currentState`, the display refreshed, and `saveState`
awaited; on rejection the error is shown; `finally` clears
`isProcessing`. -/
def executeCode (ui : UIState) (input : Option String) (outcome : ExecOutcome) :
    UIState × List UIAction :=
  if ui.isProcessing then (ui, [])
  else
    match input with
    | none => (ui, [])
    | some raw =>
      let code := jsTrim raw
      if code = "" then (ui, [])
      else
        match outcome with
        | .success result =>
          let ui1 := { ui with isProcessing := true, currentState := some result }
          let saved := saveState ui1
          ({ saved.1 with isProcessing := false },
           [.workerExecute code, .renderState result] ++ saved.2)
        | .failure err =>
          ({ ui with isProcessing := false },
           [.workerExecute code, .showError err])

/-- Escaping performed by `LycorisUI.escapeHtml` (main.ts lines
495-499) through the DOM `textContent` / `innerHTML` round-trip: the
markup-significant characters are replaced by entities. -/
def escapeHtmlChar (c : Char) : String :=
  if c = '&' then "&amp;"
  else if c = '<' then "&lt;"
  else if c = '>' then "&gt;"
  else String.singleton c

/-- `LycorisUI.escapeHtml` applied to a whole string. -/
def escapeHtml (text : String) : String :=
  String.join (text.toList.map escapeHtmlChar)

/-- One row of the dictionary table produced by
`updateDisplayFromState` (main.ts lines 408-418) for a dictionary
entry `word`.  The template interpolates `word[2]` into the
`style="color: ..."` attribute of the name span, `word[0]` as the
span's text, and `escapeHtml(word[1])` as the second cell; a missing
array element interpolates as the text `undefined`. -/
def renderDictRow (word : List String) : String :=
  "<tr><td><span class=\"word-name\" style=\"color: " ++ word.getD 2 "undefined"
    ++ ";\">" ++ word.getD 0 "undefined" ++ "</span></td><td>"
    ++ escapeHtml (word.getD 1 "undefined") ++ "</td></tr>"

/-- `LycorisUI.formatValue` (main.ts lines 474-493), classifying a
stack-snapshot entry by its text: `[...]` → vector span, `"..."` →
string span, `true`/`false` → boolean span, `nil` → nil span,
otherwise a number span, abbreviated when the text contains `/` and is
longer than 50 characters. -/
def formatValue (value : String) : String :=
  if jsStartsWith value "[" && jsEndsWith value "]" then
    "<span class=\"vector\">" ++ value ++ "</span>"
  else if jsStartsWith value "\"" && jsEndsWith value "\"" then
    "<span class=\"string\">" ++ value ++ "</span>"
  else if value = "true" || value = "false" then
    "<span class=\"boolean\">" ++ value ++ "</span>"
  else if value = "nil" then
    "<span class=\"nil\">" ++ value ++ "</span>"
  else
    if jsIncludesChar value '/' && decide (jsLength value > 50) then
      let parts := jsSplitChar value '/'
      let p0 := parts.getD 0 ""
      let p1 := parts.getD 1 ""
      let num := jsSubstring p0 0 20 ++ "..." ++ jsSubstringFrom p0 (jsLength p0 - 10)
      let den := jsSubstring p1 0 20 ++ "..." ++ jsSubstringFrom p1 (jsLength p1 - 10)
      "<span class=\"number\" title=\"" ++ value ++ "\">" ++ num ++ "/" ++ den ++ "</span>"
    else
      "<span class=\"number\">" ++ value ++ "</span>"

end LycorisUI

/-- Modelled from the spec: the canonical textual form of a `String`
value is single-quoted text ("String → single-quoted text with no
escape processing"; the tokenizer accepts only `'...'` string
literals).  The evaluator that emits this form lives in the worker
module, which is not part of src/. -/
def canonicalStringForm (text : String) : String :=
  "\x27" ++ text ++ "\x27"

/-! Concrete states used to instantiate theorems. -/

/-- An IndexedDB store with no keys. -/
def emptyStore : LycorisDB.Store := fun _ => none

/-- A worker result whose serialized state blob is the empty string. -/
def stateWithEmptyBlob : ExecState := ⟨[], "", [], ""⟩

/-- A UI holding a current state whose blob is empty, over an empty
store. -/
def uiWithEmptyBlob : LycorisUI.UIState := ⟨false, some stateWithEmptyBlob, some emptyStore⟩

/-- A worker result with a non-empty serialized state blob. -/
def stateWithBlob : ExecState := ⟨["8"], "8\n", [["square", "dup mul", "#ff0000"]], "blob"⟩

/-- A UI holding `stateWithBlob`, over an empty store. -/
def uiWithBlob : LycorisUI.UIState := ⟨false, some stateWithBlob, some emptyStore⟩

/-! Helper lemmas shared by several theorems. -/

/-- Processing a non-ready message for id `n` leaves `n` outside the
pending set, whether or not it was there before (relies on pending ids
being pairwise distinct). -/
theorem not_pending_after_onmessage (st : WorkerManager.WMState) (dtype ddata : String)
    (n : Nat) (hnd : st.pending.Nodup) (hdt : dtype ≠ "ready") :
    n ∉ (WorkerManager.onmessage st dtype (some n) ddata).1.pending := by
  unfold WorkerManager.onmessage
  simp only [if_neg hdt]
  by_cases hn : n ∈ st.pending
  · simp only [if_pos hn]
    exact hnd.not_mem_erase
  · simp only [if_neg hn]
    exact hn

/-- Firing the timeout for id `n` leaves `n` outside the pending set,
whether or not it was there before. -/
theorem not_pending_after_timeout (st : WorkerManager.WMState) (n : Nat)
    (hnd : st.pending.Nodup) :
    n ∉ (WorkerManager.timeoutFires st n).1.pending := by
  unfold WorkerManager.timeoutFires
  by_cases hn : n ∈ st.pending
  · simp only [if_pos hn]
    exact hnd.not_mem_erase
  · simp only [if_neg hn]
    exact hn

/-- `sendMessage` preserves the manager invariant: the id it hands out
is the counter value, which is fresh for the pending set, and the
counter is then advanced past it. -/
theorem WMInv_sendMessage (st : WorkerManager.WMState) (type : String)
    (data : Option String) (hinv : WorkerManager.WMInv st) :
    WorkerManager.WMInv (WorkerManager.sendMessage st type data).state := by
  unfold WorkerManager.sendMessage
  by_cases hw : (!st.worker || !st.ready) = true
  · simpa [hw] using hinv
  · simp only [hw, Bool.false_eq_true, if_false]
    refine ⟨List.nodup_cons.mpr ⟨fun hmem => ?_, hinv.1⟩, ?_⟩
    · exact absurd (hinv.2 _ hmem) (lt_irrefl _)
    · intro i hi
      show i < st.messageId + 1
      rcases List.mem_cons.mp hi with h | h
      · omega
      · exact Nat.lt_trans (hinv.2 i h) (Nat.lt_succ_self _)

/-! Theorems settling the claims. -/

/-- C1, counterexample: on a timeout the host rejects the pending
promise with `Operation timeout` but does NOT discard the worker
instance — starting from a manager with a live worker and request 0
pending, after the timeout for id 0 fires the `worker` field is still
set (`terminate` is never invoked by the timeout handler). -/
theorem timeout_leaves_worker_attached :
    (WorkerManager.timeoutFires ⟨true, 1, [0], true⟩ 0).2
      = [(0, Settlement.rejected "Operation timeout")] ∧
    ¬ ((WorkerManager.timeoutFires ⟨true, 1, [0], true⟩ 0).1.worker = false) := by
  constructor
  · rfl
  · simp [WorkerManager.timeoutFires]

/-- C1, amended: when the 60-second timeout fires for a request still
pending, the host removes the id from the pending set and rejects the
pending promise with `Error("Operation timeout")`, but it does not
discard the worker instance: the `worker` field is left unchanged, and
recovery by replacement would require a separate `terminate` call that
the timeout handler never makes. -/
theorem timeout_rejects_pending_keeps_worker (st : WorkerManager.WMState) (id : Nat)
    (h : id ∈ st.pending) :
    WorkerManager.timeoutFires st id
      = ({ st with pending := st.pending.erase id },
         [(id, Settlement.rejected "Operation timeout")]) ∧
    (WorkerManager.timeoutFires st id).1.worker = st.worker := by
  refine ⟨?_, ?_⟩ <;> simp [WorkerManager.timeoutFires, h]

/-- Witness for the amended C1 theorem at a concrete state. -/
theorem timeout_rejects_pending_keeps_worker_witness :
    WorkerManager.timeoutFires ⟨true, 2, [1], true⟩ 1
      = ({ worker := true, messageId := 2, pending := [], ready := true },
         [(1, Settlement.rejected "Operation timeout")]) ∧
    (WorkerManager.timeoutFires ⟨true, 2, [1], true⟩ 1).1.worker = true :=
  timeout_rejects_pending_keeps_worker ⟨true, 2, [1], true⟩ 1 (by decide)

/-- C2: the canonical textual form of a String value is single-quoted
(per the spec; the worker-side evaluator is not in src/), yet
`formatValue` tests for double quotes, so the canonical string
`'hi'` falls through every classifying branch and is rendered with the
NUMBER style, never the string style — the string branch is unreachable
for canonical string values. -/
theorem canonical_string_rendered_as_number :
    LycorisUI.formatValue (canonicalStringForm "hi")
      = "<span class=\"number\">" ++ canonicalStringForm "hi" ++ "</span>" ∧
    LycorisUI.formatValue (canonicalStringForm "hi")
      ≠ "<span class=\"string\">" ++ canonicalStringForm "hi" ++ "</span>" := by
  constructor
  · rfl
  · decide

/-- C7: for a dictionary-snapshot triple in the order
(name, body_canonical, color), the rendered table row interpolates
component 0 as the word's name text, component 2 as the CSS color of
the name span, and the HTML-escaped component 1 as the body cell. -/
theorem dictionary_row_positions (n b c : String) :
    LycorisUI.renderDictRow [n, b, c]
      = "<tr><td><span class=\"word-name\" style=\"color: " ++ c ++ ";\">"
        ++ n ++ "</span></td><td>" ++ LycorisUI.escapeHtml b ++ "</td></tr>" := rfl

/-- C9: before initialization every public operation fails with a typed
error and has no effect — `LycorisDB.save` and `LycorisDB.load` reject
with `Database not initialized` when no database is connected, and
`WorkerManager.sendMessage` (hence `execute`, `getState`, `loadState`)
rejects with `Worker not ready`, posting nothing and leaving the
manager state unchanged, whenever the worker is absent or not ready. -/
theorem uninitialized_components_reject (key value type : String) (data : Option String)
    (st : WorkerManager.WMState) (h : st.worker = false ∨ st.ready = false) :
    LycorisDB.save none key value = .error "Database not initialized" ∧
    LycorisDB.load none key = .error "Database not initialized" ∧
    WorkerManager.sendMessage st type data
      = { state := st, posted := [], outcome := .error "Worker not ready" } := by
  refine ⟨rfl, rfl, ?_⟩
  rcases h with h | h <;> simp [WorkerManager.sendMessage, h]

/-- Witness for the C9 theorem at a concrete uninitialized state. -/
theorem uninitialized_components_reject_witness :
    LycorisDB.save none "dictionary" "blob" = .error "Database not initialized" ∧
    LycorisDB.load none "dictionary" = .error "Database not initialized" ∧
    WorkerManager.sendMessage ⟨false, 0, [], false⟩ "execute" (some "5 3 add")
      = { state := ⟨false, 0, [], false⟩, posted := [],
          outcome := .error "Worker not ready" } :=
  uninitialized_components_reject "dictionary" "blob" "execute" (some "5 3 add")
    ⟨false, 0, [], false⟩ (Or.inl rfl)

/-- C3: on a ready manager whose pending ids satisfy the counter
invariant, `sendMessage` allocates the counter value as correlation id,
which is distinct from every id still pending; and a worker message
bearing id `n` (for a pending `n`; the handshake type `ready` carries
no id) settles exactly the promise of request `n` — resolved on a
`success` response, rejected otherwise — after which `n` is no longer
pending. -/
theorem correlation_id_matching (st : WorkerManager.WMState)
    (type dtype ddata : String) (data : Option String) (n : Nat)
    (hinv : WorkerManager.WMInv st) (hw : st.worker = true) (hr : st.ready = true)
    (hdt : dtype ≠ "ready") (hn : n ∈ st.pending) :
    ((WorkerManager.sendMessage st type data).outcome = .ok st.messageId ∧
      st.messageId ∉ st.pending) ∧
    (WorkerManager.onmessage st dtype (some n) ddata).2.1
      = [(n, if dtype = "success" then Settlement.resolved ddata
             else Settlement.rejected ddata)] ∧
    n ∉ (WorkerManager.onmessage st dtype (some n) ddata).1.pending := by
  refine ⟨⟨?_, fun hmem => absurd (hinv.2 _ hmem) (lt_irrefl _)⟩, ?_, ?_⟩
  · simp [WorkerManager.sendMessage, hw, hr]
  · simp [WorkerManager.onmessage, hdt, hn]
  · exact not_pending_after_onmessage st dtype ddata n hinv.1 hdt

/-- Witness for the C3 theorem at a concrete manager state. -/
theorem correlation_id_matching_witness :
    ((WorkerManager.sendMessage ⟨true, 3, [2, 0], true⟩ "execute" (some "1 2 add")).outcome
        = .ok 3 ∧ 3 ∉ [2, 0]) ∧
    (WorkerManager.onmessage ⟨true, 3, [2, 0], true⟩ "success" (some 2) "done").2.1
      = [(2, if "success" = "success" then Settlement.resolved "done"
             else Settlement.rejected "done")] ∧
    2 ∉ (WorkerManager.onmessage ⟨true, 3, [2, 0], true⟩ "success" (some 2) "done").1.pending :=
  correlation_id_matching ⟨true, 3, [2, 0], true⟩ "execute" "success" "done"
    (some "1 2 add") 2 (by decide) rfl rfl (by decide) (by decide)

/-- C8: each request promise settles at most once — after the response
handler has processed id `n`, the timeout callback for `n` finds it
absent and changes nothing; after the timeout for `n` has fired, a
response bearing `n` finds it absent and changes nothing; and
`sendMessage` preserves the invariant that pending ids are pairwise
distinct and below the strictly increasing counter. -/
theorem settle_at_most_once (st : WorkerManager.WMState)
    (type dtype ddata : String) (data : Option String) (n : Nat)
    (hinv : WorkerManager.WMInv st) (hdt : dtype ≠ "ready") :
    WorkerManager.timeoutFires (WorkerManager.onmessage st dtype (some n) ddata).1 n
      = ((WorkerManager.onmessage st dtype (some n) ddata).1, []) ∧
    WorkerManager.onmessage (WorkerManager.timeoutFires st n).1 dtype (some n) ddata
      = ((WorkerManager.timeoutFires st n).1, [], []) ∧
    WorkerManager.WMInv (WorkerManager.sendMessage st type data).state := by
  refine ⟨?_, ?_, WMInv_sendMessage st type data hinv⟩
  · have h := not_pending_after_onmessage st dtype ddata n hinv.1 hdt
    simp [WorkerManager.timeoutFires, h]
  · have h := not_pending_after_timeout st n hinv.1
    simp [WorkerManager.onmessage, hdt, h]

/-- Witness for the C8 theorem at a concrete manager state. -/
theorem settle_at_most_once_witness :
    WorkerManager.timeoutFires
        (WorkerManager.onmessage ⟨true, 3, [2, 0], true⟩ "success" (some 2) "done").1 2
      = ((WorkerManager.onmessage ⟨true, 3, [2, 0], true⟩ "success" (some 2) "done").1, []) ∧
    WorkerManager.onmessage
        (WorkerManager.timeoutFires ⟨true, 3, [2, 0], true⟩ 2).1 "success" (some 2) "done"
      = ((WorkerManager.timeoutFires ⟨true, 3, [2, 0], true⟩ 2).1, [], []) ∧
    WorkerManager.WMInv
      (WorkerManager.sendMessage ⟨true, 3, [2, 0], true⟩ "getState" none).state :=
  settle_at_most_once ⟨true, 3, [2, 0], true⟩ "getState" "success" "done" none 2
    (by decide) (by decide)

/-- C4: at most one execute call is in flight — while `isProcessing`
is set, `executeCode` returns immediately with no state change and no
effect (nothing sent to the worker, no database access); and whenever a
call starts with `isProcessing` clear, it is clear again after every
completion path, success or error. -/
theorem executeCode_mutual_exclusion (ui : LycorisUI.UIState) (input : Option String)
    (o : LycorisUI.ExecOutcome) :
    (ui.isProcessing = true → LycorisUI.executeCode ui input o = (ui, [])) ∧
    (ui.isProcessing = false →
      (LycorisUI.executeCode ui input o).1.isProcessing = false) := by
  constructor
  · intro h
    simp [LycorisUI.executeCode, h]
  · intro h
    cases input with
    | none => simp [LycorisUI.executeCode, h]
    | some raw =>
      by_cases hc : jsTrim raw = ""
      · simp [LycorisUI.executeCode, h, hc]
      · cases o with
        | success result => simp [LycorisUI.executeCode, h, hc]
        | failure err => simp [LycorisUI.executeCode, h, hc]

/-- Witness for the C4 theorem: a busy UI ignores the call, an idle UI
ends the call with `isProcessing` clear. -/
theorem executeCode_mutual_exclusion_witness :
    LycorisUI.executeCode ⟨true, none, none⟩ (some "5 3 add")
        (.failure "Operation timeout") = (⟨true, none, none⟩, []) ∧
    (LycorisUI.executeCode ⟨false, none, none⟩ (some "5 3 add")
        (.failure "Operation timeout")).1.isProcessing = false :=
  ⟨(executeCode_mutual_exclusion ⟨true, none, none⟩ (some "5 3 add")
      (.failure "Operation timeout")).1 rfl,
   (executeCode_mutual_exclusion ⟨false, none, none⟩ (some "5 3 add")
      (.failure "Operation timeout")).2 rfl⟩

/-- C5: a failed execute request is surfaced exactly once and never
retried — when the awaited execute promise rejects, `executeCode`
performs exactly one worker request and one error display and nothing
else (no re-execution, no database write, no process exit), ending with
`isProcessing` clear. -/
theorem failure_surfaced_once_no_retry (ui : LycorisUI.UIState) (raw err : String)
    (h1 : ui.isProcessing = false) (h2 : jsTrim raw ≠ "") :
    LycorisUI.executeCode ui (some raw) (.failure err)
      = ({ ui with isProcessing := false },
         [.workerExecute (jsTrim raw), .showError err]) ∧
    (LycorisUI.executeCode ui (some raw) (.failure err)).2.countP
        (fun a => match a with
          | .workerExecute _ => true
          | _ => false) = 1 := by
  have hmain : LycorisUI.executeCode ui (some raw) (.failure err)
      = ({ ui with isProcessing := false },
         [.workerExecute (jsTrim raw), .showError err]) := by
    simp [LycorisUI.executeCode, h1, h2]
  refine ⟨hmain, ?_⟩
  rw [hmain]
  rfl

/-- Witness for the C5 theorem at a concrete UI state. -/
theorem failure_surfaced_once_no_retry_witness :
    LycorisUI.executeCode ⟨false, none, none⟩ (some "5 3 add")
        (.failure "Error: Unknown word") =
      ({ isProcessing := false, currentState := none, db := none },
       [.workerExecute (jsTrim "5 3 add"), .showError "Error: Unknown word"]) ∧
    (LycorisUI.executeCode ⟨false, none, none⟩ (some "5 3 add")
        (.failure "Error: Unknown word")).2.countP
        (fun a => match a with
          | .workerExecute _ => true
          | _ => false) = 1 :=
  failure_surfaced_once_no_retry ⟨false, none, none⟩ "5 3 add" "Error: Unknown word"
    rfl (by decide)

/-- C10: when the execute request rejects, `currentState` is left
unchanged and no IndexedDB write happens; a write — under key
`dictionary`, of the new state blob — occurs on the success path. -/
theorem db_written_only_after_success (ui : LycorisUI.UIState) (raw err : String)
    (result : ExecState) (s : LycorisDB.Store)
    (h1 : ui.isProcessing = false) (h2 : jsTrim raw ≠ "") (hdb : ui.db = some s) :
    (LycorisUI.executeCode ui (some raw) (.failure err)).1.currentState
        = ui.currentState ∧
    (∀ k v, LycorisUI.UIAction.dbPut k v
        ∉ (LycorisUI.executeCode ui (some raw) (.failure err)).2) ∧
    LycorisUI.UIAction.dbPut "dictionary" result.state
        ∈ (LycorisUI.executeCode ui (some raw) (.success result)).2 := by
  refine ⟨?_, ?_, ?_⟩
  · simp [LycorisUI.executeCode, h1, h2]
  · intro k v
    simp [LycorisUI.executeCode, h1, h2]
  · simp [LycorisUI.executeCode, LycorisUI.saveState, LycorisDB.save, h1, h2, hdb]

/-- Witness for the C10 theorem at a concrete UI state. -/
theorem db_written_only_after_success_witness :
    (LycorisUI.executeCode ⟨false, none, some emptyStore⟩ (some "5 3 add")
        (.failure "boom")).1.currentState = none ∧
    (∀ k v, LycorisUI.UIAction.dbPut k v
        ∉ (LycorisUI.executeCode ⟨false, none, some emptyStore⟩ (some "5 3 add")
            (.failure "boom")).2) ∧
    LycorisUI.UIAction.dbPut "dictionary" stateWithBlob.state
        ∈ (LycorisUI.executeCode ⟨false, none, some emptyStore⟩ (some "5 3 add")
            (.success stateWithBlob)).2 :=
  db_written_only_after_success ⟨false, none, some emptyStore⟩ "5 3 add" "boom"
    stateWithBlob emptyStore rfl (by decide) rfl

/-- C6, counterexample: saving a current state whose serialized blob is
the empty string stores it under key `dictionary` and a subsequent load
yields that same empty blob, yet `loadSavedState` performs no restore —
the JS truthiness test `if (state)` skips the empty string, so nothing
is sent to the evaluator. -/
theorem empty_blob_saved_but_not_restored :
    LycorisDB.load (LycorisUI.saveState uiWithEmptyBlob).1.db "dictionary"
      = .ok (some "") ∧
    (LycorisUI.loadSavedState (LycorisUI.saveState uiWithEmptyBlob).1
        stateWithEmptyBlob).2 = [] := ⟨rfl, rfl⟩

/-- C6, amended: save and load use the same key `dictionary`, and for
every current state with a non-empty serialized blob, a load following
the save yields exactly that blob and restores it into the evaluator at
startup (`loadState` on the blob, then `getState` into
`currentState`); a saved empty blob is loaded back unchanged but skips
the restore step. -/
theorem save_load_roundtrip_restores (ui : LycorisUI.UIState) (cs ws : ExecState)
    (s : LycorisDB.Store) (hcs : ui.currentState = some cs) (hdb : ui.db = some s)
    (hne : cs.state ≠ "") :
    (LycorisUI.saveState ui).2 = [.dbPut "dictionary" cs.state] ∧
    LycorisDB.load (LycorisUI.saveState ui).1.db "dictionary" = .ok (some cs.state) ∧
    LycorisUI.loadSavedState (LycorisUI.saveState ui).1 ws
      = ({ (LycorisUI.saveState ui).1 with currentState := some ws },
         [.workerLoadState cs.state, .workerGetState]) := by
  have hsave : LycorisUI.saveState ui
      = ({ ui with db := some (fun k => if k = "dictionary" then some cs.state else s k) },
         [.dbPut "dictionary" cs.state]) := by
    simp [LycorisUI.saveState, LycorisDB.save, hcs, hdb]
  refine ⟨by rw [hsave], ?_, ?_⟩
  · rw [hsave]
    simp [LycorisDB.load]
  · rw [hsave]
    simp [LycorisUI.loadSavedState, LycorisDB.load, hne]

/-- Witness for the amended C6 theorem at a concrete UI state. -/
theorem save_load_roundtrip_restores_witness :
    (LycorisUI.saveState uiWithBlob).2 = [.dbPut "dictionary" stateWithBlob.state] ∧
    LycorisDB.load (LycorisUI.saveState uiWithBlob).1.db "dictionary"
      = .ok (some stateWithBlob.state) ∧
    LycorisUI.loadSavedState (LycorisUI.saveState uiWithBlob).1 stateWithEmptyBlob
      = ({ (LycorisUI.saveState uiWithBlob).1 with
            currentState := some stateWithEmptyBlob },
         [.workerLoadState stateWithBlob.state, .workerGetState]) :=
  save_load_roundtrip_restores uiWithBlob stateWithBlob stateWithEmptyBlob emptyStore
    rfl rfl (by decide)

end Lycoris
